import Mathlib

/-!
# Verification of the SOG point-attribute codec (`src/core_new/sogs.cpp`)

Shallow embedding of the compressed splat-attribute export pipeline
(`lfs::core::write_sog` and its helpers) together with proofs of the
specified properties.  Machine floats are modelled by exact arithmetic
(`ℚ`/`ℝ`); casts to integer types are modelled by `Int.floor` (C++
float-to-integer casts truncate toward zero and every cast in this file is
applied to a nonnegative value).
-/

set_option maxHeartbeats 1000000

namespace LFS

/-! ## C1 — SH palette size (write_sog, lines 664–667) -/

/-- Fuel-driven floor of the base-2 logarithm: `log2floorAux f n` equals
`⌊log₂ n⌋` whenever `n ≥ 1` and `f ≥ n`.  The fuel makes the definition
structurally recursive so that the kernel can evaluate it. -/
def log2floorAux : ℕ → ℕ → ℕ
  | 0, _ => 0
  | f + 1, n => if n < 2 then 0 else log2floorAux f (n / 2) + 1

/-- `⌊log₂ n⌋` (0 for `n = 0`). -/
def log2floor (n : ℕ) : ℕ := log2floorAux n n

/-- `static_cast<int>(std::pow(2, std::floor(std::log2(num_splats / 1024.0))))`
in exact arithmetic: for `n < 1024` the power is a proper fraction and the
int cast truncates it to `0`; otherwise it is `2 ^ ⌊log₂ (n / 1024)⌋`
(`⌊log₂⌋` of the real quotient coincides with `⌊log₂⌋` of the integer
quotient because the thresholds `2^k` are integers). -/
def pow2_floor_log2 (n : ℕ) : ℕ :=
  if n < 1024 then 0 else 2 ^ log2floor (n / 1024)

/-- The SH palette size actually computed by `write_sog`:
`palette_size = std::min(64, std::max(1, pow2 * 1024));`
`palette_size = std::min(palette_size, (int)num_splats);`. -/
def sh_palette_size (n : ℕ) : ℕ :=
  min (min 64 (max 1 (pow2_floor_log2 n * 1024))) n

/-- The palette size stated by the spec:
`clamp(pow2_floor(N/1024) * 1024, 1024, min(64*1024, N))`
(`std::clamp v lo hi = max lo (min v hi)` for `lo ≤ hi`). -/
def sh_palette_size_spec (n : ℕ) : ℕ :=
  max 1024 (min (pow2_floor_log2 n * 1024) (min (64 * 1024) n))

/-! ## C5 — sh0 alpha byte (write_sog, lines 596–611) -/

/-- The alpha byte written to the sh0 plane:
`static_cast<uint8_t>(std::max(1.0f, 255.0f * opacity))` in exact
arithmetic (`opacity` is the sigmoid of the raw logit, supplied by
`splat_data.get_opacity()`); the `uint8_t` cast truncates the
nonnegative value, i.e. takes the floor. -/
def alpha_byte (opacity : ℚ) : ℤ := ⌊max 1 (255 * opacity)⌋

/-- The alpha byte as the claim states it:
`round(clamp(sigmoid(logit_opacity), 0, 1) * 255)` clamped below at 1. -/
def alpha_byte_claim (opacity : ℚ) : ℤ :=
  max 1 (round (min 1 (max 0 opacity) * 255))

/-! ## Theorems for C1 -/

/-- C1: the SH palette size passed to N-D clustering does **not** match the
spec formula.  At `N = 2048` (SH degree > 0) the code computes
`min(min(64, max(1, 2^1 * 1024)), 2048) = 64`, whereas
`clamp(pow2_floor(N/1024)*1024, 1024, min(64*1024, N)) = 2048`:
the code's `std::min(64, …)` cap lost the `* 1024` of the intended
`64*1024` entry cap, which also makes its `pow2`/`max(1, ·)` computation
dead (that operand is always `0` or `≥ 1024`, never in `(1, 64)`). -/
theorem C1_palette_size_bug :
    sh_palette_size 2048 = 64 ∧ sh_palette_size_spec 2048 = 2048 := by
  constructor <;> rfl

/-! ## Theorems for C5 -/

/-- C5 counterexample: at opacity `sigmoid(logit) = 1/100` the code writes
`⌊max 1 (255/100)⌋ = 2`, but `round(clamp(1/100,0,1)*255)` clamped below
at 1 is `round(2.55) = 3`: the code truncates, it does not round. -/
theorem C5_alpha_byte_counterexample :
    alpha_byte (1 / 100) = 2 ∧ alpha_byte_claim (1 / 100) = 3 ∧
      alpha_byte (1 / 100) ≠ alpha_byte_claim (1 / 100) := by
  refine ⟨?_, ?_, ?_⟩ <;> norm_num [alpha_byte, alpha_byte_claim, round_eq]

/-- C5 amended: the alpha byte equals `trunc(clamp(sigmoid,0,1)*255)`
clamped below at 1 (truncation, not rounding); it always lies in
`[1, 255]`, and a sigmoid of exactly `0.0` yields byte `1`. -/
theorem C5_alpha_byte_amended (o : ℚ) (h0 : 0 ≤ o) (h1 : o ≤ 1) :
    alpha_byte o = max 1 ⌊min 1 (max 0 o) * 255⌋ ∧
      1 ≤ alpha_byte o ∧ alpha_byte o ≤ 255 ∧ (o = 0 → alpha_byte o = 1) := by
  have hclamp : min 1 (max 0 o) = o := by
    rw [max_eq_right h0, min_eq_right h1]
  refine ⟨?_, ?_, ?_, ?_⟩
  · rw [hclamp, alpha_byte, mul_comm o 255]
    rcases le_or_lt (255 * o) 1 with h | h
    · rw [max_eq_left h]
      have : ⌊(255 : ℚ) * o⌋ ≤ 1 := by
        calc ⌊(255 : ℚ) * o⌋ ≤ ⌊(1 : ℚ)⌋ := Int.floor_le_floor h
        _ = 1 := by norm_num
      rw [max_eq_left this]
      norm_num
    · rw [max_eq_right h.le, max_eq_right]
      have : ⌊(1 : ℚ)⌋ ≤ ⌊(255 : ℚ) * o⌋ := Int.floor_le_floor h.le
      simpa using this
  · unfold alpha_byte
    have : (1 : ℚ) ≤ max 1 (255 * o) := le_max_left _ _
    calc (1 : ℤ) = ⌊(1 : ℚ)⌋ := by norm_num
    _ ≤ ⌊max 1 (255 * o)⌋ := Int.floor_le_floor this
  · unfold alpha_byte
    have h255 : max 1 (255 * o) ≤ (255 : ℚ) := by
      rw [max_le_iff]
      constructor
      · norm_num
      · nlinarith
    calc ⌊max 1 (255 * o)⌋ ≤ ⌊(255 : ℚ)⌋ := Int.floor_le_floor h255
    _ = 255 := by norm_num
  · intro ho
    subst ho
    unfold alpha_byte
    norm_num

/-- Witness for C5's amended theorem at opacity `1/2`. -/
theorem C5_alpha_byte_amended_witness :
    ((0 : ℚ) ≤ 1 / 2 ∧ (1 / 2 : ℚ) ≤ 1) ∧
      (alpha_byte (1 / 2) = max 1 ⌊min 1 (max 0 (1 / 2 : ℚ)) * 255⌋ ∧
        1 ≤ alpha_byte (1 / 2) ∧ alpha_byte (1 / 2) ≤ 255 ∧
        ((1 / 2 : ℚ) = 0 → alpha_byte (1 / 2) = 1)) :=
  ⟨⟨by norm_num, by norm_num⟩,
    C5_alpha_byte_amended (1 / 2) (by norm_num) (by norm_num)⟩

/-! ## C6 — raster dimensions (write_sog, lines 341–342) -/

/-- Ceiling square root: the least `s` with `n ≤ s * s`. -/
def ceilSqrt (n : ℕ) : ℕ :=
  if Nat.sqrt n * Nat.sqrt n = n then Nat.sqrt n else Nat.sqrt n + 1

theorem le_ceilSqrt_sq (n : ℕ) : n ≤ ceilSqrt n * ceilSqrt n := by
  unfold ceilSqrt
  split_ifs with h
  · omega
  · exact le_of_lt (Nat.lt_succ_sqrt n)

theorem ceilSqrt_le (n m : ℕ) (h : n ≤ m * m) : ceilSqrt n ≤ m := by
  unfold ceilSqrt
  split_ifs with he
  · calc Nat.sqrt n ≤ Nat.sqrt (m * m) := Nat.sqrt_le_sqrt h
    _ = m := Nat.sqrt_eq m
  · by_contra hc
    push_neg at hc
    have hm : m ≤ Nat.sqrt n := by omega
    have h1 : m * m ≤ n := le_trans (Nat.mul_le_mul hm hm) (Nat.sqrt_le n)
    have h2 : n = m * m := le_antisymm h h1
    have h3 : Nat.sqrt n = m := by rw [h2, Nat.sqrt_eq]
    exact he (by rw [h3, ← h2])

theorem ceilSqrt_pos (n : ℕ) (h : 1 ≤ n) : 1 ≤ ceilSqrt n := by
  rcases Nat.eq_zero_or_pos (ceilSqrt n) with h0 | h1
  · have h2 := le_ceilSqrt_sq n
    rw [h0] at h2
    omega
  · exact h1

theorem pred_ceilSqrt_sq_lt (n : ℕ) (h : 1 ≤ n) :
    (ceilSqrt n - 1) * (ceilSqrt n - 1) < n := by
  unfold ceilSqrt
  split_ifs with he
  · have hs : 1 ≤ Nat.sqrt n := by
      rw [Nat.le_sqrt]
      omega
    obtain ⟨m, hm⟩ : ∃ m, Nat.sqrt n = m + 1 := ⟨Nat.sqrt n - 1, by omega⟩
    rw [hm] at he
    simp only [hm, Nat.add_sub_cancel]
    nlinarith [he]
  · have h1 : Nat.sqrt n * Nat.sqrt n ≤ n := Nat.sqrt_le n
    simpa using lt_of_le_of_ne h1 he

/-- Raster width from `write_sog`:
`((int)std::ceil(std::sqrt(num_splats) / 4.0)) * 4` in exact arithmetic;
`⌈√n / 4⌉ = ⌈⌈√n⌉ / 4⌉ = (ceilSqrt n + 3) / 4` (proved below). -/
def sog_width (n : ℕ) : ℕ := ((ceilSqrt n + 3) / 4) * 4

/-- Raster height from `write_sog`:
`((int)std::ceil(num_splats / (float)width / 4.0)) * 4` in exact
arithmetic: `⌈n / width / 4⌉ * 4 = ((n + 4*width - 1) / (4*width)) * 4`. -/
def sog_height (n : ℕ) : ℕ := ((n + 4 * sog_width n - 1) / (4 * sog_width n)) * 4

theorem sog_width_eq_ceil (n : ℕ) (hn : 1 ≤ n) :
    sog_width n = ⌈Real.sqrt n / 4⌉₊ * 4 := by
  have hs1 : 1 ≤ ceilSqrt n := ceilSqrt_pos n hn
  set s := ceilSqrt n with hs
  set q := (s + 3) / 4 with hq
  have hq1 : 1 ≤ q := by omega
  have hq2 : s ≤ 4 * q := by omega
  have hq3 : 4 * q ≤ s + 3 := by omega
  have hceil : ⌈Real.sqrt n / 4⌉₊ = q := by
    rw [Nat.ceil_eq_iff (by omega)]
    constructor
    · -- (q - 1 : ℕ) < √n / 4
      have hsn : ((s - 1 : ℕ) : ℝ) < Real.sqrt n := by
        rw [Real.lt_sqrt (by positivity), sq]
        exact_mod_cast pred_ceilSqrt_sq_lt n hn
      have hb : (4 * (q - 1) : ℕ) ≤ s - 1 := by omega
      have hlt : ((4 * (q - 1) : ℕ) : ℝ) < Real.sqrt n :=
        lt_of_le_of_lt (by exact_mod_cast hb) hsn
      rw [lt_div_iff₀ (by norm_num : (0:ℝ) < 4)]
      push_cast [Nat.cast_sub hq1] at hlt ⊢
      linarith
    · -- √n / 4 ≤ q
      rw [div_le_iff₀ (by norm_num : (0:ℝ) < 4)]
      have hns : (n : ℝ) ≤ ((4 * q : ℕ) : ℝ) ^ 2 := by
        rw [sq]
        exact_mod_cast le_trans (le_ceilSqrt_sq n) (Nat.mul_le_mul hq2 hq2)
      have hle := (Real.sqrt_le_left
        (by positivity : (0:ℝ) ≤ ((4 * q : ℕ) : ℝ))).2 hns
      push_cast at hle ⊢
      linarith
  rw [sog_width, hceil]

theorem sog_height_eq_ceil (n w : ℕ) (hn : 1 ≤ n) (hw : 1 ≤ w) :
    ((n + 4 * w - 1) / (4 * w)) * 4 = ⌈(n : ℝ) / w / 4⌉₊ * 4 := by
  set q := (n + 4 * w - 1) / (4 * w) with hqdef
  have heq := Nat.div_add_mod (n + 4 * w - 1) (4 * w)
  have hr : (n + 4 * w - 1) % (4 * w) < 4 * w := Nat.mod_lt _ (by omega)
  rw [← hqdef] at heq
  set r := (n + 4 * w - 1) % (4 * w) with hrdef
  have h1 : n ≤ 4 * w * q ∧ 4 * w * q < n + 4 * w := by
    set t := 4 * w * q with htdef
    omega
  obtain ⟨hlo, hhi⟩ := h1
  have hq1 : 1 ≤ q := by
    by_contra hc
    push_neg at hc
    interval_cases q
    omega
  have hceil : ⌈(n : ℝ) / w / 4⌉₊ = q := by
    rw [div_div, Nat.ceil_eq_iff (by omega)]
    have hw4 : (0:ℝ) < (w : ℝ) * 4 := by positivity
    constructor
    · rw [lt_div_iff₀ hw4]
      have hstep : (4 * w * (q - 1) : ℕ) < n := by
        obtain ⟨p, hp⟩ : ∃ p, q = p + 1 := ⟨q - 1, by omega⟩
        have hmul : 4 * w * (p + 1) = 4 * w * p + 4 * w := by ring
        rw [hp, hmul] at hhi
        simp only [hp, Nat.add_sub_cancel]
        omega
      have hc : ((4 * w * (q - 1) : ℕ) : ℝ) < (n : ℝ) := by exact_mod_cast hstep
      push_cast [Nat.cast_sub hq1] at hc ⊢
      nlinarith [hc]
    · rw [div_le_iff₀ hw4]
      have hc : ((n : ℕ) : ℝ) ≤ ((4 * w * q : ℕ) : ℝ) := by exact_mod_cast hlo
      push_cast at hc ⊢
      nlinarith [hc]
  rw [hceil]

/-- C6: the raster dimensions match the spec formulas
`width = ceil(sqrt(N)/4)*4`, `height = ceil(N/width/4)*4`; both are
multiples of 4; `width*height ≥ N`; and `N = 1` yields 4×4 planes. -/
theorem C6_raster_dimensions (n : ℕ) (hn : 1 ≤ n) :
    sog_width n = ⌈Real.sqrt n / 4⌉₊ * 4 ∧
      sog_height n = ⌈(n : ℝ) / sog_width n / 4⌉₊ * 4 ∧
      4 ∣ sog_width n ∧ 4 ∣ sog_height n ∧
      n ≤ sog_width n * sog_height n ∧
      (n = 1 → sog_width n = 4 ∧ sog_height n = 4) := by
  have hw : 1 ≤ sog_width n := by
    have := ceilSqrt_pos n hn
    unfold sog_width
    omega
  refine ⟨sog_width_eq_ceil n hn, ?_, dvd_mul_left 4 _, dvd_mul_left 4 _, ?_, ?_⟩
  · exact sog_height_eq_ceil n (sog_width n) hn hw
  · -- n ≤ width * height
    set w := sog_width n with hwdef
    set q := (n + 4 * w - 1) / (4 * w) with hqdef
    have heq := Nat.div_add_mod (n + 4 * w - 1) (4 * w)
    have hr : (n + 4 * w - 1) % (4 * w) < 4 * w := Nat.mod_lt _ (by omega)
    rw [← hqdef] at heq
    set r := (n + 4 * w - 1) % (4 * w) with hrdef
    have hlo : n ≤ 4 * w * q := by
      set t := 4 * w * q with htdef
      omega
    have : sog_height n = q * 4 := rfl
    rw [this]
    calc n ≤ 4 * w * q := hlo
    _ = w * (q * 4) := by ring
  · intro h1
    subst h1
    constructor <;> rfl

/-- Witness for C6 at `N = 10`. -/
theorem C6_raster_dimensions_witness :
    (1 ≤ 10) ∧
      (sog_width 10 = ⌈Real.sqrt 10 / 4⌉₊ * 4 ∧
        sog_height 10 = ⌈(10 : ℝ) / sog_width 10 / 4⌉₊ * 4 ∧
        4 ∣ sog_width 10 ∧ 4 ∣ sog_height 10 ∧
        10 ≤ sog_width 10 * sog_height 10 ∧
        (10 = 1 → sog_width 10 = 4 ∧ sog_height 10 = 4)) :=
  ⟨by norm_num, C6_raster_dimensions 10 (by norm_num)⟩

/-! ## C10 — manifest top-level keys (write_sog, lines 617–652, 739–752) -/

/-- Minimal JSON value model for the `meta.json` manifest. -/
inductive JsonVal where
  | num (q : ℚ)
  | arr (xs : List JsonVal)
  | str (s : String)
  | obj (fields : List (String × JsonVal))

/-- The `meta` object assembled by `write_sog`, entries in source order.
`mins`/`maxs` are the per-axis log-domain bounds, `scale_cb`/`color_cb`
the 1-D codebooks, and `sh` the optional shN block
`(codebook, palette_size, bands, coeffs)` present when `sh_degree > 0`
and the SH clustering was non-empty. -/
def build_meta (n w h : ℕ) (mins maxs scale_cb color_cb : List ℚ)
    (sh : Option (List ℚ × ℕ × ℕ × ℕ)) : List (String × JsonVal) :=
  [("version", .num 2), ("count", .num n), ("width", .num w), ("height", .num h),
   ("means", .obj [("mins", .arr (mins.map .num)), ("maxs", .arr (maxs.map .num)),
                   ("files", .arr [.str "means_l.webp", .str "means_u.webp"])]),
   ("scales", .obj [("codebook", .arr (scale_cb.map .num)),
                    ("files", .arr [.str "scales.webp"])]),
   ("quats", .obj [("files", .arr [.str "quats.webp"])]),
   ("sh0", .obj [("codebook", .arr (color_cb.map .num)),
                 ("files", .arr [.str "sh0.webp"])])] ++
  (match sh with
   | none => []
   | some (cb, ps, bands, coeffs) =>
     [("shN", .obj [("codebook", .arr (cb.map .num)), ("palette_size", .num ps),
                    ("bands", .num bands), ("coeffs", .num coeffs),
                    ("files", .arr [.str "shN_centroids.webp",
                                    .str "shN_labels.webp"])])])

/-- The manifest `write_sog` writes for `n` splats: its `width` and
`height` entries are the computed raster dimensions. -/
def write_sog_meta (n : ℕ) (mins maxs scale_cb color_cb : List ℚ)
    (sh : Option (List ℚ × ℕ × ℕ × ℕ)) : List (String × JsonVal) :=
  build_meta n (sog_width n) (sog_height n) mins maxs scale_cb color_cb sh

/-- C10: every manifest contains top-level `version = 2`, `width` and
`height` keys, the latter equal to the computed raster dimensions. -/
theorem C10_manifest_version_width_height (n : ℕ)
    (mins maxs scale_cb color_cb : List ℚ) (sh : Option (List ℚ × ℕ × ℕ × ℕ)) :
    (write_sog_meta n mins maxs scale_cb color_cb sh).lookup "version" =
        some (.num 2) ∧
      (write_sog_meta n mins maxs scale_cb color_cb sh).lookup "width" =
        some (.num (sog_width n)) ∧
      (write_sog_meta n mins maxs scale_cb color_cb sh).lookup "height" =
        some (.num (sog_height n)) := by
  refine ⟨rfl, rfl, rfl⟩

/-! ## C7 / C8 — pipeline control flow of write_sog (lines 318–789) -/

/-- Observable outcome of one `write_sog` run: the files that reached the
output (archive entries or final `.webp`/`meta.json` files), whether the
zip archive was opened, whether the output directory was created, and
the returned result. -/
structure SogRun where
  written : List String
  archive_opened : Bool
  dir_created : Bool
  result : Except String Unit

/-- Control-flow model of `write_sog`, faithful to the source's order of
progress checkpoints, setup side effects and writes.  `cb p s` is the
progress callback (`report_progress(p, s)`; `false` = cancel); `n` the
splat count; `is_bundle` = the output extension is `.sog`; `has_sh` =
`sh_degree > 0 && shN.is_valid() && shN.numel() > 0`; `sh_empty` = the
SH clustering returned zero centroids (channel skipped with a warning).
Image encoding and archive writes are modelled as succeeding — a failing
write aborts even earlier, so it can only shorten the trace. -/
def write_sog_model (cb : ℚ → String → Bool) (n : ℕ)
    (is_bundle has_sh sh_empty : Bool) : SogRun :=
  if cb 0 "Initializing" = false then ⟨[], false, false, .error "Export cancelled"⟩ else
  if n = 0 then ⟨[], false, false, .error "No splats to write"⟩ else
  if cb (1/50) "Loading data" = false then ⟨[], false, false, .error "Export cancelled"⟩ else
  if cb (1/20) "Morton sort" = false then ⟨[], false, false, .error "Export cancelled"⟩ else
  -- the SogArchive constructor opens the bundle, or create_directories runs
  let ao := is_bundle
  let dc := !is_bundle
  if cb (1/10) "Positions" = false then ⟨[], ao, dc, .error "Export cancelled"⟩ else
  let w1 := ["means_l.webp", "means_u.webp"]
  if cb (1/4) "Rotations" = false then ⟨w1, ao, dc, .error "Export cancelled"⟩ else
  let w2 := w1 ++ ["quats.webp"]
  if cb (7/20) "Scales k-means" = false then ⟨w2, ao, dc, .error "Export cancelled"⟩ else
  let w3 := w2 ++ ["scales.webp"]
  if cb (1/2) "Colors k-means" = false then ⟨w3, ao, dc, .error "Export cancelled"⟩ else
  let w4 := w3 ++ ["sh0.webp"]
  if has_sh then
    if cb (13/20) "SH k-means" = false then ⟨w4, ao, dc, .error "Export cancelled"⟩ else
    let w5 := if sh_empty then w4
              else w4 ++ ["shN_centroids.webp", "shN_labels.webp"]
    if cb (9/10) "Writing" = false then ⟨w5, ao, dc, .error "Export cancelled"⟩ else
    ⟨w5 ++ ["meta.json"], ao, dc, .ok ()⟩
  else
    if cb (9/10) "Writing" = false then ⟨w4, ao, dc, .error "Export cancelled"⟩ else
    ⟨w4 ++ ["meta.json"], ao, dc, .ok ()⟩

/-- The progress checkpoints (stage boundaries) of `write_sog`, in
execution order. -/
def sog_boundaries (has_sh : Bool) : List (ℚ × String) :=
  [(0, "Initializing"), (1/50, "Loading data"), (1/20, "Morton sort"),
   (1/10, "Positions"), (1/4, "Rotations"), (7/20, "Scales k-means"),
   (1/2, "Colors k-means")] ++
  (if has_sh then [(13/20, "SH k-means")] else []) ++ [(9/10, "Writing")]

/-- The files `write_sog` has written before reaching checkpoint `k`. -/
def planes_before (sh_empty : Bool) : ℕ → List String
  | 0 => [] | 1 => [] | 2 => [] | 3 => []
  | 4 => ["means_l.webp", "means_u.webp"]
  | 5 => ["means_l.webp", "means_u.webp", "quats.webp"]
  | 6 => ["means_l.webp", "means_u.webp", "quats.webp", "scales.webp"]
  | 7 => ["means_l.webp", "means_u.webp", "quats.webp", "scales.webp", "sh0.webp"]
  | _ + 8 =>
    ["means_l.webp", "means_u.webp", "quats.webp", "scales.webp", "sh0.webp"] ++
      (if sh_empty then [] else ["shN_centroids.webp", "shN_labels.webp"])

/-- C7: if the progress callback answers `true` at every checkpoint before
the `k`-th and `false` at the `k`-th, the export returns the cancellation
error and exactly the files of the stages before checkpoint `k` were
written — in particular nothing of any later stage, and never
`meta.json`. -/
theorem C7_cancellation_stops_pipeline (cb : ℚ → String → Bool) (n : ℕ)
    (is_bundle has_sh sh_empty : Bool) (k : ℕ) (hn : 1 ≤ n)
    (hk : k < (sog_boundaries has_sh).length)
    (hbefore : ∀ j, j < k →
      cb ((sog_boundaries has_sh).getD j (0, "")).1
        ((sog_boundaries has_sh).getD j (0, "")).2 = true)
    (hcancel : cb ((sog_boundaries has_sh).getD k (0, "")).1
      ((sog_boundaries has_sh).getD k (0, "")).2 = false) :
    (write_sog_model cb n is_bundle has_sh sh_empty).result =
        .error "Export cancelled" ∧
      (write_sog_model cb n is_bundle has_sh sh_empty).written =
        planes_before sh_empty k ∧
      "meta.json" ∉ (write_sog_model cb n is_bundle has_sh sh_empty).written := by
  have hn0 : n ≠ 0 := by omega
  cases has_sh
  case false =>
    have hk8 : k < 8 := by simpa [sog_boundaries] using hk
    interval_cases k
    · have hc : cb 0 "Initializing" = false := hcancel
      refine ⟨?_, ?_, ?_⟩ <;> (simp only [write_sog_model, hc]; simp [planes_before])
    · have h0 : cb 0 "Initializing" = true := hbefore 0 (by omega)
      have hc : cb (1/50) "Loading data" = false := hcancel
      refine ⟨?_, ?_, ?_⟩ <;> (simp only [write_sog_model, h0, hc, hn0]; simp [planes_before])
    · have h0 : cb 0 "Initializing" = true := hbefore 0 (by omega)
      have h1 : cb (1/50) "Loading data" = true := hbefore 1 (by omega)
      have hc : cb (1/20) "Morton sort" = false := hcancel
      refine ⟨?_, ?_, ?_⟩ <;> (simp only [write_sog_model, h0, h1, hc, hn0]; simp [planes_before])
    · have h0 : cb 0 "Initializing" = true := hbefore 0 (by omega)
      have h1 : cb (1/50) "Loading data" = true := hbefore 1 (by omega)
      have h2 : cb (1/20) "Morton sort" = true := hbefore 2 (by omega)
      have hc : cb (1/10) "Positions" = false := hcancel
      refine ⟨?_, ?_, ?_⟩ <;>
        (simp only [write_sog_model, h0, h1, h2, hc, hn0]; simp [planes_before])
    · have h0 : cb 0 "Initializing" = true := hbefore 0 (by omega)
      have h1 : cb (1/50) "Loading data" = true := hbefore 1 (by omega)
      have h2 : cb (1/20) "Morton sort" = true := hbefore 2 (by omega)
      have h3 : cb (1/10) "Positions" = true := hbefore 3 (by omega)
      have hc : cb (1/4) "Rotations" = false := hcancel
      refine ⟨?_, ?_, ?_⟩ <;>
        (simp only [write_sog_model, h0, h1, h2, h3, hc, hn0]; simp [planes_before])
    · have h0 : cb 0 "Initializing" = true := hbefore 0 (by omega)
      have h1 : cb (1/50) "Loading data" = true := hbefore 1 (by omega)
      have h2 : cb (1/20) "Morton sort" = true := hbefore 2 (by omega)
      have h3 : cb (1/10) "Positions" = true := hbefore 3 (by omega)
      have h4 : cb (1/4) "Rotations" = true := hbefore 4 (by omega)
      have hc : cb (7/20) "Scales k-means" = false := hcancel
      refine ⟨?_, ?_, ?_⟩ <;>
        (simp only [write_sog_model, h0, h1, h2, h3, h4, hc, hn0]; simp [planes_before])
    · have h0 : cb 0 "Initializing" = true := hbefore 0 (by omega)
      have h1 : cb (1/50) "Loading data" = true := hbefore 1 (by omega)
      have h2 : cb (1/20) "Morton sort" = true := hbefore 2 (by omega)
      have h3 : cb (1/10) "Positions" = true := hbefore 3 (by omega)
      have h4 : cb (1/4) "Rotations" = true := hbefore 4 (by omega)
      have h5 : cb (7/20) "Scales k-means" = true := hbefore 5 (by omega)
      have hc : cb (1/2) "Colors k-means" = false := hcancel
      refine ⟨?_, ?_, ?_⟩ <;>
        (simp only [write_sog_model, h0, h1, h2, h3, h4, h5, hc, hn0]; simp [planes_before])
    · have h0 : cb 0 "Initializing" = true := hbefore 0 (by omega)
      have h1 : cb (1/50) "Loading data" = true := hbefore 1 (by omega)
      have h2 : cb (1/20) "Morton sort" = true := hbefore 2 (by omega)
      have h3 : cb (1/10) "Positions" = true := hbefore 3 (by omega)
      have h4 : cb (1/4) "Rotations" = true := hbefore 4 (by omega)
      have h5 : cb (7/20) "Scales k-means" = true := hbefore 5 (by omega)
      have h6 : cb (1/2) "Colors k-means" = true := hbefore 6 (by omega)
      have hc : cb (9/10) "Writing" = false := hcancel
      refine ⟨?_, ?_, ?_⟩ <;>
        (simp only [write_sog_model, h0, h1, h2, h3, h4, h5, h6, hc, hn0]; simp [planes_before])
  case true =>
    have hk9 : k < 9 := by simpa [sog_boundaries] using hk
    interval_cases k
    · have hc : cb 0 "Initializing" = false := hcancel
      refine ⟨?_, ?_, ?_⟩ <;> (simp only [write_sog_model, hc]; simp [planes_before])
    · have h0 : cb 0 "Initializing" = true := hbefore 0 (by omega)
      have hc : cb (1/50) "Loading data" = false := hcancel
      refine ⟨?_, ?_, ?_⟩ <;> (simp only [write_sog_model, h0, hc, hn0]; simp [planes_before])
    · have h0 : cb 0 "Initializing" = true := hbefore 0 (by omega)
      have h1 : cb (1/50) "Loading data" = true := hbefore 1 (by omega)
      have hc : cb (1/20) "Morton sort" = false := hcancel
      refine ⟨?_, ?_, ?_⟩ <;> (simp only [write_sog_model, h0, h1, hc, hn0]; simp [planes_before])
    · have h0 : cb 0 "Initializing" = true := hbefore 0 (by omega)
      have h1 : cb (1/50) "Loading data" = true := hbefore 1 (by omega)
      have h2 : cb (1/20) "Morton sort" = true := hbefore 2 (by omega)
      have hc : cb (1/10) "Positions" = false := hcancel
      refine ⟨?_, ?_, ?_⟩ <;>
        (simp only [write_sog_model, h0, h1, h2, hc, hn0]; simp [planes_before])
    · have h0 : cb 0 "Initializing" = true := hbefore 0 (by omega)
      have h1 : cb (1/50) "Loading data" = true := hbefore 1 (by omega)
      have h2 : cb (1/20) "Morton sort" = true := hbefore 2 (by omega)
      have h3 : cb (1/10) "Positions" = true := hbefore 3 (by omega)
      have hc : cb (1/4) "Rotations" = false := hcancel
      refine ⟨?_, ?_, ?_⟩ <;>
        (simp only [write_sog_model, h0, h1, h2, h3, hc, hn0]; simp [planes_before])
    · have h0 : cb 0 "Initializing" = true := hbefore 0 (by omega)
      have h1 : cb (1/50) "Loading data" = true := hbefore 1 (by omega)
      have h2 : cb (1/20) "Morton sort" = true := hbefore 2 (by omega)
      have h3 : cb (1/10) "Positions" = true := hbefore 3 (by omega)
      have h4 : cb (1/4) "Rotations" = true := hbefore 4 (by omega)
      have hc : cb (7/20) "Scales k-means" = false := hcancel
      refine ⟨?_, ?_, ?_⟩ <;>
        (simp only [write_sog_model, h0, h1, h2, h3, h4, hc, hn0]; simp [planes_before])
    · have h0 : cb 0 "Initializing" = true := hbefore 0 (by omega)
      have h1 : cb (1/50) "Loading data" = true := hbefore 1 (by omega)
      have h2 : cb (1/20) "Morton sort" = true := hbefore 2 (by omega)
      have h3 : cb (1/10) "Positions" = true := hbefore 3 (by omega)
      have h4 : cb (1/4) "Rotations" = true := hbefore 4 (by omega)
      have h5 : cb (7/20) "Scales k-means" = true := hbefore 5 (by omega)
      have hc : cb (1/2) "Colors k-means" = false := hcancel
      refine ⟨?_, ?_, ?_⟩ <;>
        (simp only [write_sog_model, h0, h1, h2, h3, h4, h5, hc, hn0]; simp [planes_before])
    · have h0 : cb 0 "Initializing" = true := hbefore 0 (by omega)
      have h1 : cb (1/50) "Loading data" = true := hbefore 1 (by omega)
      have h2 : cb (1/20) "Morton sort" = true := hbefore 2 (by omega)
      have h3 : cb (1/10) "Positions" = true := hbefore 3 (by omega)
      have h4 : cb (1/4) "Rotations" = true := hbefore 4 (by omega)
      have h5 : cb (7/20) "Scales k-means" = true := hbefore 5 (by omega)
      have h6 : cb (1/2) "Colors k-means" = true := hbefore 6 (by omega)
      have hc : cb (13/20) "SH k-means" = false := hcancel
      refine ⟨?_, ?_, ?_⟩ <;>
        (simp only [write_sog_model, h0, h1, h2, h3, h4, h5, h6, hc, hn0]; simp [planes_before])
    · have h0 : cb 0 "Initializing" = true := hbefore 0 (by omega)
      have h1 : cb (1/50) "Loading data" = true := hbefore 1 (by omega)
      have h2 : cb (1/20) "Morton sort" = true := hbefore 2 (by omega)
      have h3 : cb (1/10) "Positions" = true := hbefore 3 (by omega)
      have h4 : cb (1/4) "Rotations" = true := hbefore 4 (by omega)
      have h5 : cb (7/20) "Scales k-means" = true := hbefore 5 (by omega)
      have h6 : cb (1/2) "Colors k-means" = true := hbefore 6 (by omega)
      have h7 : cb (13/20) "SH k-means" = true := hbefore 7 (by omega)
      have hc : cb (9/10) "Writing" = false := hcancel
      refine ⟨?_, ?_, ?_⟩ <;> cases sh_empty <;>
        (simp only [write_sog_model, h0, h1, h2, h3, h4, h5, h6, h7,
          hc, hn0]; simp [planes_before])

/-- Witness for C7: a callback that cancels at the second checkpoint
("Loading data"), on a 5-splat SH-free export: cancellation error and an
empty written set. -/
theorem C7_cancellation_stops_pipeline_witness :
    (write_sog_model (fun _ s => !(s == "Loading data")) 5 false false
        false).result = .error "Export cancelled" ∧
      (write_sog_model (fun _ s => !(s == "Loading data")) 5 false false
        false).written = planes_before false 1 ∧
      "meta.json" ∉ (write_sog_model (fun _ s => !(s == "Loading data")) 5 false
        false false).written := by
  have h := C7_cancellation_stops_pipeline
    (fun _ s => !(s == "Loading data")) 5 false false false 1
    (by norm_num) (by simp [sog_boundaries]) (by decide) (by decide)
  exact h

/-- C8: an empty point set returns the descriptive input error with no
side effects: nothing written, no archive opened, no directory created. -/
theorem C8_empty_input_no_side_effects (cb : ℚ → String → Bool)
    (is_bundle has_sh sh_empty : Bool) (hcb : cb 0 "Initializing" = true) :
    write_sog_model cb 0 is_bundle has_sh sh_empty =
      ⟨[], false, false, .error "No splats to write"⟩ := by
  simp [write_sog_model, hcb]

/-- Witness for C8 with the always-continue callback. -/
theorem C8_empty_input_no_side_effects_witness :
    write_sog_model (fun _ _ => true) 0 true true false =
      ⟨[], false, false, .error "No splats to write"⟩ :=
  C8_empty_input_no_side_effects (fun _ _ => true) true true false rfl

/-! ## C2 — codebook monotonicity and label remapping -/

/-- Modelled from the spec: `cuda::kmeans_1d_new` / `cuda::kmeans_new`
(GPU kernels under `kernels/`, not part of this source tree) return
centroids and labels in arbitrary order, and the builder then
"re-sorts centroids ascending by value and remaps every label through
the resulting permutation".  `sort_and_remap` is that post-processing:
the emitted codebook is the value-sorted centroid list (a stable
insertion sort) and each label becomes the index of its centroid's
value in the sorted list. -/
def sort_and_remap (centroids : List ℚ) (labels : List ℕ) :
    List ℚ × List ℕ :=
  (centroids.insertionSort (· ≤ ·),
   labels.map fun l =>
     (centroids.insertionSort (· ≤ ·)).indexOf (centroids.getD l 0))

/-- C2: every emitted codebook is sorted ascending
(`codebook[i] ≤ codebook[i+1]`), and remapping each label through the
sorting permutation preserves the centroid value it selects, so labels
still select the nearest centroid. -/
theorem C2_codebook_sorted_labels_preserved (c : List ℚ) (ls : List ℕ)
    (hls : ∀ l ∈ ls, l < c.length) :
    (∀ i, i + 1 < (sort_and_remap c ls).1.length →
        (sort_and_remap c ls).1.getD i 0 ≤
          (sort_and_remap c ls).1.getD (i + 1) 0) ∧
      ∀ k, k < ls.length →
        (sort_and_remap c ls).1.getD ((sort_and_remap c ls).2.getD k 0) 0 =
          c.getD (ls.getD k 0) 0 := by
  constructor
  · intro i hi
    have hsorted := List.sorted_insertionSort (· ≤ ·) c
    have h1 : (sort_and_remap c ls).1 = c.insertionSort (· ≤ ·) := rfl
    rw [h1] at hi ⊢
    rw [List.getD_eq_get _ _ (by omega), List.getD_eq_get _ _ hi]
    exact List.pairwise_iff_get.1 hsorted ⟨i, by omega⟩ ⟨i + 1, hi⟩ (by simp)
  · intro k hk
    have h1 : (sort_and_remap c ls).2 =
        ls.map fun l => (c.insertionSort (· ≤ ·)).indexOf (c.getD l 0) := rfl
    have hk2 : k < (ls.map fun l =>
        (c.insertionSort (· ≤ ·)).indexOf (c.getD l 0)).length := by
      simpa using hk
    have h2 : (sort_and_remap c ls).2.getD k 0 =
        (c.insertionSort (· ≤ ·)).indexOf (c.getD (ls.getD k 0) 0) := by
      rw [h1, List.getD_eq_getElem _ _ hk2, List.getElem_map,
        ← List.getD_eq_getElem _ _ hk]
    rw [h2]
    have hmem0 : ls.getD k 0 ∈ ls := by
      rw [List.getD_eq_getElem _ _ hk]
      exact List.getElem_mem hk
    have hlen : ls.getD k 0 < c.length := hls _ hmem0
    have hx : c.getD (ls.getD k 0) 0 ∈ c := by
      rw [List.getD_eq_getElem _ _ hlen]
      exact List.getElem_mem hlen
    have hxs : c.getD (ls.getD k 0) 0 ∈ c.insertionSort (· ≤ ·) :=
      (List.perm_insertionSort (· ≤ ·) c).mem_iff.2 hx
    have hidx : (c.insertionSort (· ≤ ·)).indexOf (c.getD (ls.getD k 0) 0) <
        (c.insertionSort (· ≤ ·)).length := List.indexOf_lt_length.2 hxs
    have h3 : (sort_and_remap c ls).1 = c.insertionSort (· ≤ ·) := rfl
    rw [h3, List.getD_eq_get _ _ hidx]
    exact List.indexOf_get hidx

/-- Witness for C2 on centroids `[2, 0, 1]` and labels `[0, 2]`. -/
theorem C2_codebook_sorted_labels_preserved_witness :
    (∀ l ∈ [0, 2], l < ([2, 0, 1] : List ℚ).length) ∧
      ((∀ i, i + 1 < (sort_and_remap [2, 0, 1] [0, 2]).1.length →
          (sort_and_remap [2, 0, 1] [0, 2]).1.getD i 0 ≤
            (sort_and_remap [2, 0, 1] [0, 2]).1.getD (i + 1) 0) ∧
        ∀ k, k < ([0, 2] : List ℕ).length →
          (sort_and_remap [2, 0, 1] [0, 2]).1.getD
              ((sort_and_remap [2, 0, 1] [0, 2]).2.getD k 0) 0 =
            ([2, 0, 1] : List ℚ).getD (([0, 2] : List ℕ).getD k 0) 0) :=
  ⟨by decide, C2_codebook_sorted_labels_preserved [2, 0, 1] [0, 2] (by decide)⟩

/-! ## C9 — the spatial reorder permutation is a bijection -/

/-- A 3-D point with exact coordinates. -/
abbrev Vec3 := ℚ × ℚ × ℚ

/-- Minimum of a coordinate list (the first element seeds the fold). -/
def listMin : List ℚ → ℚ
  | [] => 0
  | a :: t => t.foldl min a

/-- Maximum of a coordinate list (the first element seeds the fold). -/
def listMax : List ℚ → ℚ
  | [] => 0
  | a :: t => t.foldl max a

/-- Spread the low 10 bits of `n`, placing bit `i` at position `3·i` —
the classic "Part1By2" magic-mask expansion, written arithmetically. -/
def part1by2 (n : ℕ) : ℕ :=
  (List.range 10).foldl (fun acc i => acc + n / 2 ^ i % 2 * 8 ^ i) 0

/-- Interleave three 10-bit axis codes into one 32-bit Morton code. -/
def morton3 (x y z : ℕ) : ℕ := part1by2 x + 2 * part1by2 y + 4 * part1by2 z

/-- 10-bit quantization of a coordinate over `[mn, mn + extent]`:
`min(floor((v - mn) * 1024 / extent), 1023)`, the clamp guarding the
upper bound (division by a zero extent yields 0 here, a benign value:
such an axis contributes no spatial information). -/
def quant10 (mn extent v : ℚ) : ℕ :=
  min (⌊(v - mn) * 1024 / extent⌋.toNat) 1023

/-- Split a sorted index list into maximal runs ("buckets") of equal
Morton code. -/
def splitRuns (key : ℕ → ℕ) : List ℕ → List (List ℕ)
  | [] => []
  | a :: rest =>
    match splitRuns key rest with
    | [] => [[a]]
    | [] :: gs => [a] :: [] :: gs
    | (b :: g) :: gs =>
      if key a = key b then (a :: b :: g) :: gs else [a] :: (b :: g) :: gs

theorem splitRuns_join (key : ℕ → ℕ) (l : List ℕ) :
    (splitRuns key l).join = l := by
  induction l with
  | nil => rfl
  | cons a rest ih =>
    simp only [splitRuns]
    cases hs : splitRuns key rest with
    | nil =>
      rw [hs] at ih
      simp at ih
      simp [ih]
    | cons g gs =>
      rw [hs] at ih
      cases g with
      | nil =>
        dsimp only
        simpa using ih
      | cons b g' =>
        dsimp only
        split_ifs with hkey <;> simpa using ih

/-- Modelled from the spec (§4.1): recursive adaptive Morton ordering —
the contract of `morton_encode_new` / `morton_sort_indices_new` (GPU
kernels under `kernels/`, not part of this source tree).  One step
computes the bounding box of the current index range, stops if all three
extents are zero, quantizes each coordinate to 10 bits over the box,
stable-sorts the range by interleaved Morton code, and recurses into
every run of equal codes longer than 256 points.  The recursion is
fuel-bounded: the spec's termination argument (a bucket with nonzero
extent always splits under re-quantization) guarantees `pts.length` fuel
suffices, and fuel only limits refinement depth, never which indices
appear. -/
def morton_reorder_aux (pts : List Vec3) : ℕ → List ℕ → List ℕ
  | 0, idxs => idxs
  | fuel + 1, idxs =>
    if idxs.length ≤ 1 then idxs
    else
      let P := fun i => pts.getD i (0, 0, 0)
      let xs := idxs.map fun i => (P i).1
      let ys := idxs.map fun i => (P i).2.1
      let zs := idxs.map fun i => (P i).2.2
      let mnx := listMin xs
      let mny := listMin ys
      let mnz := listMin zs
      let exx := listMax xs - mnx
      let exy := listMax ys - mny
      let exz := listMax zs - mnz
      if exx = 0 ∧ exy = 0 ∧ exz = 0 then idxs
      else
        let code := fun i =>
          morton3 (quant10 mnx exx (P i).1) (quant10 mny exy (P i).2.1)
            (quant10 mnz exz (P i).2.2)
        let sorted := idxs.insertionSort fun a b => code a ≤ code b
        (splitRuns code sorted).map
          (fun b => if 256 < b.length then morton_reorder_aux pts fuel b else b)
          |>.join

/-- The spatial reorder permutation consumed by every channel packer. -/
def morton_reorder (pts : List Vec3) : List ℕ :=
  morton_reorder_aux pts pts.length (List.range pts.length)

theorem join_map_perm (f : List ℕ → List ℕ) (bs : List (List ℕ))
    (h : ∀ b ∈ bs, (f b).Perm b) : ((bs.map f).join).Perm bs.join := by
  induction bs with
  | nil => simp
  | cons b bs ih =>
    simp only [List.map_cons, List.join_cons]
    exact (h b (by simp)).append (ih fun x hx => h x (by simp [hx]))

theorem morton_reorder_aux_perm (pts : List Vec3) (fuel : ℕ) :
    ∀ idxs, (morton_reorder_aux pts fuel idxs).Perm idxs := by
  induction fuel with
  | zero => intro idxs; exact List.Perm.refl _
  | succ fuel ih =>
    intro idxs
    simp only [morton_reorder_aux]
    split_ifs with h1 h2
    · exact List.Perm.refl _
    · exact List.Perm.refl _
    · refine List.Perm.trans
        (join_map_perm _ _ fun b _ => ?_) ?_
      · split_ifs with hlen
        · exact ih b
        · exact List.Perm.refl b
      · rw [splitRuns_join]
        exact List.perm_insertionSort _ idxs

/-- C9: the reorder permutation is a bijection on `[0, N)`: it is a
permutation of `range N`, and every index `0 ≤ i < N` occurs in it
exactly once. -/
theorem C9_reorder_is_bijection (pts : List Vec3) :
    (morton_reorder pts).Perm (List.range pts.length) ∧
      ∀ i, i < pts.length → (morton_reorder pts).count i = 1 := by
  have hperm : (morton_reorder pts).Perm (List.range pts.length) :=
    morton_reorder_aux_perm pts pts.length (List.range pts.length)
  refine ⟨hperm, fun i hi => ?_⟩
  rw [hperm.count_eq]
  exact List.count_eq_one_of_mem (List.nodup_range _) (List.mem_range.2 hi)

/-- Witness for C9 on three concrete points. -/
theorem C9_reorder_is_bijection_witness :
    (morton_reorder [((0 : ℚ), (0 : ℚ), (0 : ℚ)), (1, 2, 3), (5, 5, 5)]).count 1
      = 1 :=
  (C9_reorder_is_bijection [((0 : ℚ), (0 : ℚ), (0 : ℚ)), (1, 2, 3), (5, 5, 5)]).2
    1 (by norm_num)

/-! ## C4 — quaternion packer sign invariance (pack_quaternion, lines 43–124) -/

/-- `std::clamp(v, lo, hi)` for `lo ≤ hi`. -/
noncomputable def clampR (v lo hi : ℝ) : ℝ := max lo (min v hi)

/-- One step of the running largest-absolute-component scan
(`if (std::abs(c) > max_val) { max_val = |c|; max_idx = i; }`). -/
noncomputable def max_step (s : ℕ × ℝ) (i : ℕ) (m : ℝ) : ℕ × ℝ :=
  if s.2 < m then (i, m) else s

/-- Index (0 = w, 1 = x, 2 = y, 3 = z) and value of the largest absolute
component, scanned in the source's order (ties keep the earlier index). -/
noncomputable def largest_abs_index (w x y z : ℝ) : ℕ × ℝ :=
  max_step (max_step (max_step (0, |w|) 1 |x|) 2 |y|) 3 |z|

/-- The sign fix: negate the whole quaternion when the largest component
is negative (`q` and `-q` encode the same rotation). -/
noncomputable def sign_fix (w x y z : ℝ) : ℝ × ℝ × ℝ × ℝ :=
  if ((largest_abs_index w x y z).1 = 0 ∧ w < 0) ∨
      ((largest_abs_index w x y z).1 = 1 ∧ x < 0) ∨
      ((largest_abs_index w x y z).1 = 2 ∧ y < 0) ∨
      ((largest_abs_index w x y z).1 = 3 ∧ z < 0)
  then (-w, -x, -y, -z) else (w, x, y, z)

/-- Byte encoding of one kept component:
`(uint8)std::clamp((c * 0.5f + 0.5f) * 255.0f, 0.0f, 255.0f)`
(the cast truncates the clamped nonnegative value, i.e. floor). -/
noncomputable def quant_byte (c : ℝ) : ℤ :=
  ⌊clampR ((c * 0.5 + 0.5) * 255) 0 255⌋

/-- `pack_quaternion`: normalize (a zero-length quaternion becomes the
identity with a warning), locate the largest absolute component, fix the
global sign, scale by √2 (the source's constant `1.41421356237f`), store
the three components other than the largest as bytes, and tag byte 3
with `252 + max_idx`. -/
noncomputable def pack_quaternion (w x y z : ℝ) : ℤ × ℤ × ℤ × ℤ :=
  let len := Real.sqrt (w * w + x * x + y * y + z * z)
  let w0 := if 0 < len then w / len else 1
  let x0 := if 0 < len then x / len else 0
  let y0 := if 0 < len then y / len else 0
  let z0 := if 0 < len then z / len else 0
  let mi := (largest_abs_index w0 x0 y0 z0).1
  let p := sign_fix w0 x0 y0 z0
  let s2 : ℝ := 1.41421356237
  let w2 := p.1 * s2
  let x2 := p.2.1 * s2
  let y2 := p.2.2.1 * s2
  let z2 := p.2.2.2 * s2
  if mi = 0 then (quant_byte x2, quant_byte y2, quant_byte z2, 252 + (mi : ℤ))
  else if mi = 1 then (quant_byte w2, quant_byte y2, quant_byte z2, 252 + (mi : ℤ))
  else if mi = 2 then (quant_byte w2, quant_byte x2, quant_byte z2, 252 + (mi : ℤ))
  else (quant_byte w2, quant_byte x2, quant_byte y2, 252 + (mi : ℤ))

theorem largest_abs_index_neg (w x y z : ℝ) :
    largest_abs_index (-w) (-x) (-y) (-z) = largest_abs_index w x y z := by
  simp only [largest_abs_index, abs_neg]

theorem largest_abs_index_spec (w x y z : ℝ) :
    (((largest_abs_index w x y z).1 = 0 ∧ (largest_abs_index w x y z).2 = |w|) ∨
      ((largest_abs_index w x y z).1 = 1 ∧ (largest_abs_index w x y z).2 = |x|) ∨
      ((largest_abs_index w x y z).1 = 2 ∧ (largest_abs_index w x y z).2 = |y|) ∨
      ((largest_abs_index w x y z).1 = 3 ∧ (largest_abs_index w x y z).2 = |z|)) ∧
      |w| ≤ (largest_abs_index w x y z).2 ∧
      |x| ≤ (largest_abs_index w x y z).2 ∧
      |y| ≤ (largest_abs_index w x y z).2 ∧
      |z| ≤ (largest_abs_index w x y z).2 := by
  unfold largest_abs_index max_step
  split_ifs <;> refine ⟨?_, ?_, ?_, ?_, ?_⟩ <;> simp_all <;> linarith

theorem largest_abs_index_val_pos (w x y z : ℝ)
    (h : w * w + x * x + y * y + z * z = 1) :
    0 < (largest_abs_index w x y z).2 := by
  obtain ⟨-, hw, hx, hy, hz⟩ := largest_abs_index_spec w x y z
  by_contra hc
  push_neg at hc
  have hw0 : w = 0 := abs_eq_zero.1 (le_antisymm (le_trans hw hc) (abs_nonneg w))
  have hx0 : x = 0 := abs_eq_zero.1 (le_antisymm (le_trans hx hc) (abs_nonneg x))
  have hy0 : y = 0 := abs_eq_zero.1 (le_antisymm (le_trans hy hc) (abs_nonneg y))
  have hz0 : z = 0 := abs_eq_zero.1 (le_antisymm (le_trans hz hc) (abs_nonneg z))
  rw [hw0, hx0, hy0, hz0] at h
  norm_num at h

theorem sign_fix_neg (w x y z : ℝ) (h : w * w + x * x + y * y + z * z = 1) :
    sign_fix (-w) (-x) (-y) (-z) = sign_fix w x y z := by
  have hpos := largest_abs_index_val_pos w x y z h
  obtain ⟨hsel, -, -, -, -⟩ := largest_abs_index_spec w x y z
  unfold sign_fix
  rw [largest_abs_index_neg]
  rcases hsel with ⟨hi, he⟩ | ⟨hi, he⟩ | ⟨hi, he⟩ | ⟨hi, he⟩ <;>
    rw [hi] <;> rw [he] at hpos
  · rcases (abs_pos.mp hpos).lt_or_lt with hlt | hgt
    · have hn : ¬(-w < 0) := by linarith
      simp [hlt, hn]
    · have hn : -w < 0 := by linarith
      have hn2 : ¬(w < 0) := by linarith
      simp [hn, hn2]
  · rcases (abs_pos.mp hpos).lt_or_lt with hlt | hgt
    · have hn : ¬(-x < 0) := by linarith
      simp [hlt, hn]
    · have hn : -x < 0 := by linarith
      have hn2 : ¬(x < 0) := by linarith
      simp [hn, hn2]
  · rcases (abs_pos.mp hpos).lt_or_lt with hlt | hgt
    · have hn : ¬(-y < 0) := by linarith
      simp [hlt, hn]
    · have hn : -y < 0 := by linarith
      have hn2 : ¬(y < 0) := by linarith
      simp [hn, hn2]
  · rcases (abs_pos.mp hpos).lt_or_lt with hlt | hgt
    · have hn : ¬(-z < 0) := by linarith
      simp [hlt, hn]
    · have hn : -z < 0 := by linarith
      have hn2 : ¬(z < 0) := by linarith
      simp [hn, hn2]

/-- C4: for a unit quaternion the packer emits identical bytes for `q`
and `-q` — the sign ambiguity is resolved by the largest-component sign
fix. -/
theorem C4_pack_quaternion_sign_invariant (w x y z : ℝ)
    (h : w * w + x * x + y * y + z * z = 1) :
    pack_quaternion w x y z = pack_quaternion (-w) (-x) (-y) (-z) := by
  have hsum : -w * -w + -x * -x + -y * -y + -z * -z =
      w * w + x * x + y * y + z * z := by ring
  have hone : (0 : ℝ) < 1 := one_pos
  unfold pack_quaternion
  rw [hsum, h, Real.sqrt_one]
  simp only [hone, if_true, div_one]
  rw [largest_abs_index_neg, sign_fix_neg w x y z h]

/-- Witness for C4 at the unit quaternion `(1, 0, 0, 0)`. -/
theorem C4_pack_quaternion_sign_invariant_witness :
    ((1 : ℝ) * 1 + 0 * 0 + 0 * 0 + 0 * 0 = 1) ∧
      pack_quaternion 1 0 0 0 = pack_quaternion (-1) (-0) (-0) (-0) :=
  ⟨by norm_num, C4_pack_quaternion_sign_invariant 1 0 0 0 (by norm_num)⟩

/-! ## C3 — position round trip (log_transform line 38, quantization
lines 453–480, manifest min/max lines 625–627) -/

/-- `log_transform` (line 38): `copysign(ln(|v| + 1), v)`; `ln(|v|+1)` is
nonnegative, so this is `-ln(|v|+1)` for `v < 0` and `ln(|v|+1)`
otherwise. -/
noncomputable def log_transform (v : ℝ) : ℝ :=
  if v < 0 then -Real.log (|v| + 1) else Real.log (|v| + 1)

/-- 16-bit quantization of one log-domain coordinate, lines 453–470 in
exact arithmetic: `scale = 1/(max - min + 1e-10)` and
`(uint16)(65535 * clamp((u - min) * scale, 0, 1))` (truncation = floor on
the nonnegative clamped value). -/
noncomputable def quantize_mean (mn mx u : ℝ) : ℤ :=
  ⌊65535 * clampR ((u - mn) * (1 / (mx - mn + 1 / 10 ^ 10))) 0 1⌋

/-- Modelled from the spec: the independent web-viewer decoder is not in
this source tree; it reconstructs the 16-bit value as `high*256 + low`
and inverse-rescales by the manifest's per-axis min/max:
`u = mn + q / 65535 * (mx - mn)`. -/
noncomputable def decode_mean_log (mn mx : ℝ) (q : ℤ) : ℝ :=
  mn + (q : ℝ) / 65535 * (mx - mn)

/-- Modelled from the spec: the exact inverse of the sign-preserving log
transform, `sign(u) * (exp |u| - 1)`. -/
noncomputable def inv_log_transform (u : ℝ) : ℝ :=
  if u < 0 then -(Real.exp (-u) - 1) else Real.exp u - 1

/-- C3 counterexample: with per-axis log-domain bounds `mn = 0`,
`mx = 65535` (attained by companion points) and original coordinate
`v = e^0.99999 - 1` (whose log transform is `0.99999`), the quantized
level is `0`, the decoder reconstructs `0`, and the reconstruction error
equals `v > 1.99` — far above the claimed step
`(mx - mn) / 65536 < 1`.  The claimed bound fails: the grid has 65535
steps, not 65536, and the inverse log transform dilates the log-domain
error. -/
theorem C3_roundtrip_counterexample :
    (0 : ℝ) ≤ log_transform (Real.exp (99999 / 100000) - 1) ∧
      log_transform (Real.exp (99999 / 100000) - 1) ≤ 65535 ∧
      (65535 - 0 : ℝ) / 65536 <
        |(Real.exp (99999 / 100000) - 1) -
          inv_log_transform (decode_mean_log 0 65535
            (quantize_mean 0 65535
              (log_transform (Real.exp (99999 / 100000) - 1))))| := by
  have hexp : (99999 / 100000 : ℝ) + 1 ≤ Real.exp (99999 / 100000) :=
    Real.add_one_le_exp _
  have hv : (0 : ℝ) < Real.exp (99999 / 100000) - 1 := by linarith [hexp]
  have hlog : log_transform (Real.exp (99999 / 100000) - 1)
      = 99999 / 100000 := by
    rw [log_transform, if_neg (by linarith), abs_of_pos hv, sub_add_cancel,
      Real.log_exp]
  rw [hlog]
  have hD : (0 : ℝ) < 65535 - 0 + 1 / 10 ^ 10 := by norm_num
  have ht0 : (0 : ℝ) ≤
      (99999 / 100000 - 0) * (1 / (65535 - 0 + 1 / 10 ^ 10)) := by positivity
  have ht1 : ((99999 / 100000 : ℝ) - 0) * (1 / (65535 - 0 + 1 / 10 ^ 10))
      ≤ 1 := by
    rw [mul_one_div, div_le_one hD]
    norm_num
  have hq : quantize_mean 0 65535 (99999 / 100000) = 0 := by
    rw [quantize_mean, clampR, min_eq_left ht1, max_eq_right ht0,
      Int.floor_eq_zero_iff]
    constructor
    · positivity
    · rw [mul_one_div]
      norm_num
  have hdec : decode_mean_log 0 65535 0 = 0 := by
    rw [decode_mean_log]
    norm_num
  have hinv : inv_log_transform 0 = 0 := by
    rw [inv_log_transform, if_neg (by norm_num), Real.exp_zero]
    norm_num
  refine ⟨by norm_num, by norm_num, ?_⟩
  rw [hq, hdec, hinv]
  have habs : |Real.exp (99999 / 100000) - 1 - 0|
      = Real.exp (99999 / 100000) - 1 := by
    rw [sub_zero]
    exact abs_of_pos hv
  rw [habs]
  have hcmp : (65535 - 0 : ℝ) / 65536 < 99999 / 100000 := by norm_num
  linarith [hexp]

/-- C3 amended: the quantized level `q` fits 16 bits (`0 ≤ q ≤ 65535`),
the byte split reconstructs it exactly (`high*256 + low = q`), and
inverse-rescaling by the stored min/max reconstructs the **log-domain**
coordinate within `(mx - mn)/65535 + 1e-10` — one step of the
65535-step grid plus the epsilon regularizer; the original coordinate is
recovered by applying the exact inverse log transform to the decoded
log-domain value, which carries this log-domain accuracy. -/
theorem C3_roundtrip_amended (mn mx u : ℝ) (h1 : mn ≤ u) (h2 : u ≤ mx) :
    (0 ≤ quantize_mean mn mx u ∧ quantize_mean mn mx u ≤ 65535) ∧
      256 * (quantize_mean mn mx u / 256) + quantize_mean mn mx u % 256 =
        quantize_mean mn mx u ∧
      |u - decode_mean_log mn mx (quantize_mean mn mx u)| ≤
        (mx - mn) / 65535 + 1 / 10 ^ 10 := by
  have hR : (0 : ℝ) ≤ mx - mn := by linarith
  have hε : (0 : ℝ) < 1 / 10 ^ 10 := by norm_num
  have hD : (0 : ℝ) < mx - mn + 1 / 10 ^ 10 := by linarith
  have ht0 : 0 ≤ (u - mn) * (1 / (mx - mn + 1 / 10 ^ 10)) := by
    apply mul_nonneg (by linarith)
    positivity
  have ht1 : (u - mn) * (1 / (mx - mn + 1 / 10 ^ 10)) ≤ 1 := by
    rw [mul_one_div, div_le_one hD]
    linarith
  have hclamp : clampR ((u - mn) * (1 / (mx - mn + 1 / 10 ^ 10))) 0 1 =
      (u - mn) * (1 / (mx - mn + 1 / 10 ^ 10)) := by
    rw [clampR, min_eq_left ht1, max_eq_right ht0]
  set t := (u - mn) * (1 / (mx - mn + 1 / 10 ^ 10)) with htdef
  have hqt : quantize_mean mn mx u = ⌊65535 * t⌋ := by
    rw [quantize_mean, hclamp]
  have hfl : ((⌊(65535 : ℝ) * t⌋ : ℤ) : ℝ) ≤ 65535 * t := Int.floor_le _
  have hfu : (65535 : ℝ) * t - 1 < ((⌊(65535 : ℝ) * t⌋ : ℤ) : ℝ) :=
    Int.sub_one_lt_floor _
  have hq0 : 0 ≤ ⌊(65535 : ℝ) * t⌋ := Int.floor_nonneg.2 (by positivity)
  have hq65535 : ⌊(65535 : ℝ) * t⌋ ≤ 65535 := by
    have hb : (65535 : ℝ) * t ≤ 65535 := by nlinarith [ht1]
    calc ⌊(65535 : ℝ) * t⌋ ≤ ⌊(65535 : ℝ)⌋ := Int.floor_le_floor hb
    _ = 65535 := by norm_num
  refine ⟨⟨hqt ▸ hq0, hqt ▸ hq65535⟩, Int.ediv_add_emod _ 256, ?_⟩
  rw [hqt, decode_mean_log]
  have hu : u - mn = t * (mx - mn + 1 / 10 ^ 10) := by
    rw [htdef]
    field_simp
  rw [abs_le]
  set Q : ℝ := ((⌊(65535 : ℝ) * t⌋ : ℤ) : ℝ) with hQdef
  have hQR1 : Q * (mx - mn) ≤ 65535 * t * (mx - mn) :=
    mul_le_mul_of_nonneg_right hfl hR
  have hQR2 : (65535 * t - 1) * (mx - mn) ≤ Q * (mx - mn) :=
    mul_le_mul_of_nonneg_right hfu.le hR
  have htε : t * (1 / 10 ^ 10) ≤ 1 / 10 ^ 10 := by nlinarith [ht0, ht1, hε]
  have htε0 : 0 ≤ t * (1 / 10 ^ 10) := mul_nonneg ht0 hε.le
  have hdiv : Q / 65535 * (mx - mn) = Q * (mx - mn) / 65535 := by ring
  have huexp : u - mn = t * (mx - mn) + t * (1 / 10 ^ 10) := by
    rw [hu]
    ring
  have hQR1' : Q * (mx - mn) / 65535 ≤ t * (mx - mn) := by
    rw [div_le_iff₀ (by norm_num : (0:ℝ) < 65535)]
    linarith [hQR1]
  have hQR2' : t * (mx - mn) - (mx - mn) / 65535 ≤ Q * (mx - mn) / 65535 := by
    rw [le_div_iff₀ (by norm_num : (0:ℝ) < 65535)]
    have hexpand : (t * (mx - mn) - (mx - mn) / 65535) * 65535
        = (65535 * t - 1) * (mx - mn) := by ring
    rw [hexpand]
    exact hQR2
  have hRpos : (0:ℝ) ≤ (mx - mn) / 65535 := by positivity
  constructor
  · rw [hdiv]
    linarith [huexp, hQR1', htε0, hRpos, hε]
  · rw [hdiv]
    linarith [huexp, hQR2', htε]

/-- Witness for C3's amended theorem with `mn = 0`, `mx = 1`,
`u = 1/2`. -/
theorem C3_roundtrip_amended_witness :
    ((0 : ℝ) ≤ 1 / 2 ∧ (1 / 2 : ℝ) ≤ 1) ∧
      ((0 ≤ quantize_mean 0 1 (1 / 2) ∧ quantize_mean 0 1 (1 / 2) ≤ 65535) ∧
        256 * (quantize_mean 0 1 (1 / 2) / 256) + quantize_mean 0 1 (1 / 2) % 256 =
          quantize_mean 0 1 (1 / 2) ∧
        |(1 / 2 : ℝ) - decode_mean_log 0 1 (quantize_mean 0 1 (1 / 2))| ≤
          ((1 : ℝ) - 0) / 65535 + 1 / 10 ^ 10) :=
  ⟨⟨by norm_num, by norm_num⟩,
    C3_roundtrip_amended 0 1 (1 / 2) (by norm_num) (by norm_num)⟩

end LFS
